import Mathlib

/-!
Shallow embedding of the wandb-mcp repository (src/get_wandb_runs.py and
src/wandb_mcp_server.py) and proofs about its tool-call contract.

The remote wandb client (`wandb.Api`) is an external collaborator: its calls
are modelled as explicit parameters (an `Except`-valued fetch result, or a
function from query parameters to a fetch result), so every repository
function becomes a pure function of the remote answer.  Python dictionaries
are association lists with `Option`-valued lookup; a subscript on an absent
key is a `KeyError`; list comprehensions that may raise are monadic filters
in `Except`; Python's stable `list.sort(key=..., reverse=...)` is a stable
sort under a total preorder on the key values (flipping the comparison for
`reverse=True` yields exactly Python's stable descending sort; any two
stable sorts under the same total preorder agree, so `List.insertionSort`
is used as the executable model).
-/

/-- The universe of Python values the repository manipulates: strings
(ids, names, states, timestamps, urls), integers (paging sizes), lists of
strings (tags), and flat mappings (config / summary payloads, which the
code copies and compares but never inspects). -/
inductive Value where
  | str : String → Value
  | int : Int → Value
  | strList : List String → Value
  | strMap : List (String × String) → Value
deriving DecidableEq, Repr

/-- Spec §7 error taxonomy for remote failures: `runNotFound` is the
specialization raised when a run identifier does not resolve; `commError`
is any other remote/transport failure.  Both carry the underlying message. -/
inductive RemoteAccessError where
  | runNotFound : String → RemoteAccessError
  | commError : String → RemoteAccessError
deriving DecidableEq, Repr

/-- A Python-level failure of the adapter code itself: a `KeyError` on a
dictionary subscript, a `TypeError` from an ill-typed `in` test, or a
propagated remote error. -/
inductive PyError where
  | keyError : String → PyError
  | typeError : PyError
  | remote : RemoteAccessError → PyError
deriving DecidableEq, Repr

/-- A Python dictionary with string keys, as built by the repository:
an association list (all construction sites use distinct literal keys). -/
abbrev PyDict : Type := List (String × Value)

instance {ε α : Type} [DecidableEq ε] [DecidableEq α] : DecidableEq (Except ε α) := fun a b =>
  match a, b with
  | .ok x, .ok y =>
    if h : x = y then .isTrue (by rw [h]) else .isFalse (fun hc => h (Except.ok.inj hc))
  | .error x, .error y =>
    if h : x = y then .isTrue (by rw [h]) else .isFalse (fun hc => h (Except.error.inj hc))
  | .ok _, .error _ => .isFalse (fun hc => Except.noConfusion hc)
  | .error _, .ok _ => .isFalse (fun hc => Except.noConfusion hc)

/-- Python `d[k]` as a total lookup: `some` the stored value, `none` when
the key is absent (the caller turns `none` into a `KeyError`). -/
def pyLookup (d : PyDict) (k : String) : Option Value :=
  (d.find? (fun kv => kv.1 == k)).map (fun kv => kv.2)

/-- Python `s in t` for strings: contiguous substring test, case-sensitive. -/
def strIn (s t : String) : Bool :=
  decide (s.data <:+: t.data)

/-- Python `s in v` for the values of this model: substring test on strings,
membership on lists, key membership on mappings, `TypeError` on integers. -/
def pyIn (s : String) : Value → Except PyError Bool
  | .str t => .ok (strIn s t)
  | .strList ts => .ok (ts.contains s)
  | .strMap kvs => .ok (kvs.any (fun kv => kv.1 == s))
  | .int _ => .error .typeError

/-- A run as yielded by the remote client `api.runs(...)`: exactly the
attributes the repository reads. -/
structure RunInfo where
  id : String
  name : String
  state : String
  config : List (String × String)
  summary : List (String × String)
  created_at : String
  url : String
  tags : List String
deriving DecidableEq, Repr

/-- The run dictionary built by `get_wandb_runs` in src/get_wandb_runs.py
lines 31-39: seven keys, and no "tags" key. -/
def runDict (r : RunInfo) : PyDict :=
  [("id", .str r.id), ("name", .str r.name), ("state", .str r.state),
   ("config", .strMap r.config), ("summary", .strMap r.summary),
   ("created_at", .str r.created_at), ("url", .str r.url)]

/-- The run dictionary built by the server variant in
src/wandb_mcp_server.py lines 149-158: the same seven keys plus "tags". -/
def runDictServer (r : RunInfo) : PyDict :=
  [("id", .str r.id), ("name", .str r.name), ("state", .str r.state),
   ("config", .strMap r.config), ("summary", .strMap r.summary),
   ("created_at", .str r.created_at), ("url", .str r.url),
   ("tags", .strList r.tags)]

/-- A Python list comprehension `[x for x in l if p(x)]` whose predicate may
raise: elements are tested left to right and the first raise aborts. -/
def pyFilter (p : α → Except PyError Bool) : List α → Except PyError (List α)
  | [] => .ok []
  | a :: as =>
    match p a with
    | .error e => .error e
    | .ok b =>
      match pyFilter p as with
      | .error e => .error e
      | .ok rest => .ok (if b then a :: rest else rest)

/-- `all(run[key] == value for key, value in filters.items())` from
src/get_wandb_runs.py line 44: short-circuiting conjunction of exact
equality tests, raising `KeyError` on an absent key. -/
def allFiltersMatch (d : PyDict) : List (String × Value) → Except PyError Bool
  | [] => .ok true
  | (k, v) :: rest =>
    match pyLookup d k with
    | none => .error (.keyError k)
    | some w => if w = v then allFiltersMatch d rest else .ok false

/-- `search in run['name'] or search in run['tags']` from
src/get_wandb_runs.py line 46: Python `or` short-circuits, so the "tags"
subscript is evaluated only when the name test is false. -/
def searchCheck (s : String) (d : PyDict) : Except PyError Bool :=
  match pyLookup d "name" with
  | none => .error (.keyError "name")
  | some v =>
    match pyIn s v with
    | .error e => .error e
    | .ok true => .ok true
    | .ok false =>
      match pyLookup d "tags" with
      | none => .error (.keyError "tags")
      | some w => pyIn s w

/-- The `if filters:` guard and filter comprehension of
src/get_wandb_runs.py lines 43-44 (`None` and the empty dict are falsy). -/
def filtersStep (filters : Option (List (String × Value))) (l : List PyDict) :
    Except PyError (List PyDict) :=
  match filters with
  | none => .ok l
  | some fs => if fs.isEmpty then .ok l else pyFilter (fun d => allFiltersMatch d fs) l

/-- The `if search:` guard and search comprehension of
src/get_wandb_runs.py lines 45-46 (`None` and `""` are falsy). -/
def searchStep (search : Option String) (l : List PyDict) :
    Except PyError (List PyDict) :=
  match search with
  | none => .ok l
  | some s => if s = "" then .ok l else pyFilter (searchCheck s) l

/-- `order.lstrip('-')`: remove every leading dash. -/
def lstripDash (s : String) : String :=
  String.mk (s.data.dropWhile (fun c => c == '-'))

/-- `order.startswith('-')`. -/
def startsDash (s : String) : Bool :=
  match s.data with
  | [] => false
  | c :: _ => c == '-'

/-- Rank of a value's constructor, used to totalize comparisons across
types (Python would raise `TypeError` on a cross-type comparison; the
repository only ever sorts homogeneous string fields, where this model
coincides with Python). -/
def Value.rank : Value → Nat
  | .str _ => 0
  | .int _ => 1
  | .strList _ => 2
  | .strMap _ => 3

/-- Lexicographic comparison of character sequences by code point:
Python's string `<=`. -/
def charListLe : List Char → List Char → Bool
  | [], _ => true
  | _ :: _, [] => false
  | a :: as, b :: bs =>
    if a.toNat < b.toNat then true
    else if b.toNat < a.toNat then false
    else charListLe as bs

/-- Python's `<=` on strings: lexicographic by code point. -/
def strLe (s t : String) : Bool :=
  charListLe s.data t.data

/-- Total boolean comparison on values: string order on strings, integer
order on integers, constructor rank across types, and all lists / mappings
mutually tied. On two string values this is exactly Python's `<=`. -/
def Value.le (a b : Value) : Bool :=
  match a, b with
  | .str s, .str t => strLe s t
  | .int m, .int n => decide (m ≤ n)
  | .str _, _ => true
  | _, .str _ => false
  | .int _, _ => true
  | _, .int _ => false
  | .strList _, _ => true
  | .strMap _, .strList _ => false
  | .strMap _, .strMap _ => true

/-- The sort key `run[order.lstrip('-')]` of src/get_wandb_runs.py line 47,
defaulted for totality (the sort model first checks every key is present). -/
def sortKey (field : String) (d : PyDict) : Value :=
  (pyLookup d field).getD (.int 0)

/-- The comparison `runs_data.sort(key=..., reverse=order.startswith('-'))`
induces on two run dictionaries: ascending on the key field, flipped when
the order string starts with a dash.  Python's `reverse=True` keeps ties in
source order, which is exactly stable `mergeSort` under the flipped
comparison. -/
def sortLe (order : String) (a b : PyDict) : Bool :=
  if startsDash order then Value.le (sortKey (lstripDash order) b) (sortKey (lstripDash order) a)
  else Value.le (sortKey (lstripDash order) a) (sortKey (lstripDash order) b)

/-- `runs_data.sort(key=lambda run: run[order.lstrip('-')], reverse=...)`
from src/get_wandb_runs.py line 47: CPython first materializes every key
(raising `KeyError` if any run lacks the field), then stable-sorts.  The
stable sort is modelled by `List.insertionSort`, which is stable and agrees
with every other stable sort under the same total preorder. -/
def pySortRuns (order : String) (l : List PyDict) : Except PyError (List PyDict) :=
  if l.all (fun d => (pyLookup d (lstripDash order)).isSome) then
    .ok (l.insertionSort (fun a b => sortLe order a b = true))
  else
    .error (.keyError (lstripDash order))

/-- `get_wandb_runs` of src/get_wandb_runs.py: the local-filtering variant.
`fetch` abstracts the remote call `api.runs(f"{entity}/{project}", ...)`;
an exception from the client propagates (nothing is caught).  Then the run
dictionaries are built, filtered, searched, and sorted. -/
def get_wandb_runs_local (fetch : Except RemoteAccessError (List RunInfo))
    (order : String) (filters : Option (List (String × Value)))
    (search : Option String) : Except PyError (List PyDict) :=
  match fetch with
  | .error e => .error (.remote e)
  | .ok runs =>
    match filtersStep filters (runs.map runDict) with
    | .error e => .error e
    | .ok l₁ =>
      match searchStep search l₁ with
      | .error e => .error e
      | .ok l₂ => pySortRuns order l₂

/-- A single run as yielded by the remote client `api.run(path)`: the
attributes the detail accessors read, including the two metric-history
streams (`run.history()` and `run.history(stream="events")`), each an
ordered list of columns, a column being a name with its ordered series of
recorded values. -/
structure RunData where
  config : List (String × String)
  summary : List (String × String)
  history : List (String × List Value)
  eventsHistory : List (String × List Value)
deriving DecidableEq, Repr

/-- The three bookkeeping column names excluded from metric histories
(src/get_wandb_runs.py line 72, src/wandb_mcp_server.py lines 202, 229). -/
def bookkeepingCols : List String :=
  ["_timestamp", "_runtime", "_step"]

/-- The column loop shared by both history accessors: every column whose
name is not a bookkeeping name is kept, mapped to its value series, in
column order. -/
def stripBookkeeping (cols : List (String × List Value)) :
    List (String × List Value) :=
  cols.filter (fun c => !(bookkeepingCols.contains c.1))

/-- `get_run_config` (src/wandb_mcp_server.py lines 164-178): propagate any
client error, else return the run's config mapping as stored. -/
def get_run_config (fetchRun : Except RemoteAccessError RunData) :
    Except RemoteAccessError (List (String × String)) :=
  match fetchRun with
  | .error e => .error e
  | .ok run => .ok run.config

/-- `get_run_summary_metrics` (src/get_wandb_runs.py lines 103-117):
propagate any client error, else return the run's summary mapping. -/
def get_run_summary_metrics (fetchRun : Except RemoteAccessError RunData) :
    Except RemoteAccessError (List (String × String)) :=
  match fetchRun with
  | .error e => .error e
  | .ok run => .ok run.summary

/-- `get_run_training_metrics` (src/get_wandb_runs.py lines 51-75):
propagate any client error, else strip the bookkeeping columns from
`run.history()`. -/
def get_run_training_metrics (fetchRun : Except RemoteAccessError RunData) :
    Except RemoteAccessError (List (String × List Value)) :=
  match fetchRun with
  | .error e => .error e
  | .ok run => .ok (stripBookkeeping run.history)

/-- `get_run_system_metrics` (src/get_wandb_runs.py lines 77-101):
propagate any client error, else strip the bookkeeping columns from
`run.history(stream="events")`. -/
def get_run_system_metrics (fetchRun : Except RemoteAccessError RunData) :
    Except RemoteAccessError (List (String × List Value)) :=
  match fetchRun with
  | .error e => .error e
  | .ok run => .ok (stripBookkeeping run.eventsHistory)

/-- Modelled from the spec: the external wandb client call
`api.run(f"{entity}/{project}/{run_id}")` is not part of this repository;
per spec §4.3 / §7 it fails with `RunNotFoundError` (a `RemoteAccessError`
specialization) when no run with that identifier exists under the given
entity/project.  The remote service is a registry of run paths. -/
def apiRun (registry : List (String × RunData)) (entity project run_id : String) :
    Except RemoteAccessError RunData :=
  let path := entity ++ "/" ++ project ++ "/" ++ run_id
  match registry.find? (fun kv => kv.1 == path) with
  | some kv => .ok kv.2
  | none => .error (.runNotFound path)

/-- A project as yielded by the remote client `api.projects(entity)`:
exactly the attributes `get_entity_projects` reads. -/
structure ProjectInfo where
  name : String
  entity : String
  description : String
  visibility : String
  created_at : String
  updated_at : String
  tags : List String
deriving DecidableEq, Repr

/-- The project dictionary built by `get_entity_projects`
(src/wandb_mcp_server.py lines 80-88): exactly seven attributes. -/
def projectDict (p : ProjectInfo) : PyDict :=
  [("name", .str p.name), ("entity", .str p.entity),
   ("description", .str p.description), ("visibility", .str p.visibility),
   ("created_at", .str p.created_at), ("updated_at", .str p.updated_at),
   ("tags", .strList p.tags)]

/-- `get_entity_projects` (src/wandb_mcp_server.py lines 53-91): propagate
any client error, else reshape each project in the order the remote
service yields them. -/
def get_entity_projects (fetchProjects : Except RemoteAccessError (List ProjectInfo)) :
    Except RemoteAccessError (List PyDict) :=
  match fetchProjects with
  | .error e => .error e
  | .ok ps => .ok (ps.map projectDict)

/-- The keys the server variant forwards from `filters` to the remote call
(src/wandb_mcp_server.py line 133). -/
def allowedFilterKeys : List String :=
  ["state", "tags", "config", "summary"]

/-- The `query_params` dictionary built by the server variant of
`get_wandb_runs` (src/wandb_mcp_server.py lines 124-138): paging and order,
then the filter entries whose key is allowed, then the search string
(`None` and falsy values skip their block). -/
def buildQueryParams (per_page : Int) (order : String)
    (filters : Option (List (String × Value))) (search : Option String) :
    List (String × Value) :=
  let base : List (String × Value) :=
    [("per_page", .int per_page), ("order", .str order)]
  let withFilters :=
    match filters with
    | none => base
    | some fs =>
      if fs.isEmpty then base
      else base ++ fs.filter (fun kv => allowedFilterKeys.contains kv.1)
  match search with
  | none => withFilters
  | some s => if s = "" then withFilters else withFilters ++ [("search", .str s)]

/-- `get_wandb_runs` of src/wandb_mcp_server.py (lines 93-161): the variant
delegating filter/search/order to the remote call.  `api_runs` abstracts
`api.runs(path, **query_params)`; its exception propagates; each returned
run is reshaped with the eight-key dictionary (including "tags"). -/
def get_wandb_runs_server
    (api_runs : String → List (String × Value) → Except RemoteAccessError (List RunInfo))
    (entity project : String) (per_page : Int) (order : String)
    (filters : Option (List (String × Value))) (search : Option String) :
    Except RemoteAccessError (List PyDict) :=
  match api_runs (entity ++ "/" ++ project) (buildQueryParams per_page order filters search) with
  | .error e => .error e
  | .ok runs => .ok (runs.map runDictServer)

/-- `variables or {}` from src/wandb_mcp_server.py line 49: `None` and the
empty dict are falsy and replaced by the empty dict. -/
def pyOrEmpty : Option (List (String × Value)) → List (String × Value)
  | none => []
  | some vs => if vs.isEmpty then [] else vs

/-- `execute_graphql_query` (src/wandb_mcp_server.py lines 8-51):
`api.client.execute(query, variables or {})`, the nested result returned
unchanged.  `clientExecute` abstracts the GraphQL execution engine. -/
def execute_graphql_query
    (clientExecute : String → List (String × Value) → Except RemoteAccessError Value)
    (query : String) (vars : Option (List (String × Value))) :
    Except RemoteAccessError Value :=
  clientExecute query (pyOrEmpty vars)

/-! ### Order facts about the value comparison -/

/-- `charListLe` decides the negation of the code-point lexicographic `<`
on character lists (the core inductive `List.lt`), hence `strLe` decides
Lean's `String` order `≤`. -/
theorem charListLe_iff_not_lt :
    ∀ s t : List Char, charListLe s t = true ↔ ¬ List.lt t s := by
  intro s
  induction s with
  | nil =>
    intro t
    simp only [charListLe]
    constructor
    · intro _ h
      cases h
    · intro _
      trivial
  | cons a as ih =>
    intro t
    cases t with
    | nil =>
      simp only [charListLe]
      constructor
      · intro h
        cases h
      · intro h
        exact absurd (List.lt.nil a as) h
    | cons b bs =>
      simp only [charListLe]
      by_cases hab : a.toNat < b.toNat
      · rw [if_pos hab]
        constructor
        · intro _ h
          cases h with
          | head _ _ hba => exact Nat.lt_asymm hab hba
          | tail h1 h2 _ => exact h2 hab
        · intro _
          trivial
      · rw [if_neg hab]
        by_cases hba : b.toNat < a.toNat
        · rw [if_pos hba]
          constructor
          · intro h
            cases h
          · intro h
            exact absurd (List.lt.head bs as hba) h
        · rw [if_neg hba]
          rw [ih bs]
          constructor
          · intro h hlt
            cases hlt with
            | head _ _ hba' => exact hba hba'
            | tail _ _ h3 => exact h h3
          · intro h hlt
            exact h (List.lt.tail hba hab hlt)

/-- `strLe` is Lean's `≤` on `String` (both are the code-point
lexicographic order, which is also Python's string comparison). -/
theorem strLe_iff_le {s t : String} : strLe s t = true ↔ s ≤ t := by
  have h1 := charListLe_iff_not_lt s.data t.data
  have h2 := List.lt_iff_lex_lt t.data s.data
  rw [String.le_iff_toList_le, ← not_lt]
  constructor
  · intro h hlt
    exact (h1.mp h) (h2.mpr hlt)
  · intro h
    exact h1.mpr (fun hlt => h (h2.mp hlt))

theorem strLe_refl (s : String) : strLe s s = true :=
  strLe_iff_le.mpr le_rfl

theorem strLe_trans {s t u : String} (h1 : strLe s t = true) (h2 : strLe t u = true) :
    strLe s u = true :=
  strLe_iff_le.mpr (le_trans (strLe_iff_le.mp h1) (strLe_iff_le.mp h2))

theorem strLe_total (s t : String) : strLe s t = true ∨ strLe t s = true := by
  rcases le_total s t with h | h
  · exact Or.inl (strLe_iff_le.mpr h)
  · exact Or.inr (strLe_iff_le.mpr h)

theorem Value.le_refl (a : Value) : Value.le a a = true := by
  cases a with
  | str s => simpa [Value.le] using strLe_refl s
  | int n => simp [Value.le]
  | strList l => simp [Value.le]
  | strMap m => simp [Value.le]

theorem Value.le_trans : ∀ {a b c : Value},
    Value.le a b = true → Value.le b c = true → Value.le a c = true := by
  intro a b c
  cases a <;> cases b <;> cases c <;> simp only [Value.le] <;>
    first
    | (intro h1 h2; exact strLe_trans h1 h2)
    | (simp; intro h1 h2; omega)
    | simp

theorem Value.le_total : ∀ a b : Value, Value.le a b = true ∨ Value.le b a = true := by
  intro a b
  cases a <;> cases b <;> simp only [Value.le] <;>
    first
    | exact strLe_total _ _
    | (simp; omega)
    | simp

theorem sortLe_trans {order : String} {a b c : PyDict}
    (h1 : sortLe order a b = true) (h2 : sortLe order b c = true) :
    sortLe order a c = true := by
  unfold sortLe at h1 h2 ⊢
  by_cases hd : startsDash order = true
  · rw [if_pos hd] at h1 h2 ⊢
    exact Value.le_trans h2 h1
  · rw [if_neg hd] at h1 h2 ⊢
    exact Value.le_trans h1 h2

theorem sortLe_total (order : String) (a b : PyDict) :
    sortLe order a b = true ∨ sortLe order b a = true := by
  unfold sortLe
  by_cases hd : startsDash order = true
  · simp only [hd, if_true]
    exact (Value.le_total (sortKey (lstripDash order) b) (sortKey (lstripDash order) a))
  · simp only [hd, if_false]
    exact Value.le_total (sortKey (lstripDash order) a) (sortKey (lstripDash order) b)

theorem sortLe_of_key_eq {order : String} {a b : PyDict}
    (h : sortKey (lstripDash order) a = sortKey (lstripDash order) b) :
    sortLe order a b = true := by
  unfold sortLe
  by_cases hd : startsDash order = true
  · rw [if_pos hd, ← h]
    exact Value.le_refl _
  · rw [if_neg hd, h]
    exact Value.le_refl _

/-! ### Behaviour of the monadic filter -/

theorem pyFilter_ok_mem {α : Type} {p : α → Except PyError Bool} :
    ∀ {l l' : List α}, pyFilter p l = .ok l' → ∀ a ∈ l', a ∈ l ∧ p a = .ok true := by
  intro l
  induction l with
  | nil =>
    intro l' h a ha
    simp only [pyFilter] at h
    cases h
    simp at ha
  | cons x xs ih =>
    intro l' h a ha
    simp only [pyFilter] at h
    cases hx : p x with
    | error e => rw [hx] at h; cases h
    | ok b =>
      rw [hx] at h
      cases hxs : pyFilter p xs with
      | error e => rw [hxs] at h; cases h
      | ok rest =>
        rw [hxs] at h
        cases h
        cases b with
        | true =>
          rcases List.mem_cons.mp ha with rfl | ha'
          · exact ⟨List.mem_cons_self _ _, hx⟩
          · rcases ih hxs a ha' with ⟨h1, h2⟩
            exact ⟨List.mem_cons_of_mem _ h1, h2⟩
        | false =>
          rcases ih hxs a ha with ⟨h1, h2⟩
          exact ⟨List.mem_cons_of_mem _ h1, h2⟩

theorem pyFilter_ok_sublist {α : Type} {p : α → Except PyError Bool} :
    ∀ {l l' : List α}, pyFilter p l = .ok l' → l'.Sublist l := by
  intro l
  induction l with
  | nil =>
    intro l' h
    simp only [pyFilter] at h
    cases h
    exact List.Sublist.refl _
  | cons x xs ih =>
    intro l' h
    simp only [pyFilter] at h
    cases hx : p x with
    | error e => rw [hx] at h; cases h
    | ok b =>
      rw [hx] at h
      cases hxs : pyFilter p xs with
      | error e => rw [hxs] at h; cases h
      | ok rest =>
        rw [hxs] at h
        cases h
        cases b with
        | true => exact List.Sublist.cons₂ x (ih hxs)
        | false => exact List.Sublist.cons x (ih hxs)

theorem pyFilter_ok_apply {α : Type} {p : α → Except PyError Bool} :
    ∀ {l l' : List α}, pyFilter p l = .ok l' → ∀ a ∈ l, ∃ b, p a = .ok b := by
  intro l
  induction l with
  | nil =>
    intro l' _ a ha
    simp at ha
  | cons x xs ih =>
    intro l' h a ha
    simp only [pyFilter] at h
    cases hx : p x with
    | error e => rw [hx] at h; cases h
    | ok b =>
      rw [hx] at h
      cases hxs : pyFilter p xs with
      | error e => rw [hxs] at h; cases h
      | ok rest =>
        rcases List.mem_cons.mp ha with rfl | ha'
        · exact ⟨b, hx⟩
        · exact ih hxs a ha'

theorem pyFilter_error_exists {α : Type} {p : α → Except PyError Bool} :
    ∀ {l : List α} {e : PyError}, pyFilter p l = .error e → ∃ a ∈ l, p a = .error e := by
  intro l
  induction l with
  | nil =>
    intro e h
    simp only [pyFilter] at h
    cases h
  | cons x xs ih =>
    intro e h
    simp only [pyFilter] at h
    cases hx : p x with
    | error e' =>
      rw [hx] at h
      cases h
      exact ⟨x, List.mem_cons_self _ _, hx⟩
    | ok b =>
      rw [hx] at h
      cases hxs : pyFilter p xs with
      | error e' =>
        rw [hxs] at h
        cases h
        rcases ih hxs with ⟨a, ha, hpa⟩
        exact ⟨a, List.mem_cons_of_mem _ ha, hpa⟩
      | ok rest => rw [hxs] at h; cases h

/-! ### The filter and search predicates -/

theorem allFiltersMatch_ok_true {d : PyDict} :
    ∀ {fs : List (String × Value)}, allFiltersMatch d fs = .ok true →
      ∀ kv ∈ fs, pyLookup d kv.1 = some kv.2 := by
  intro fs
  induction fs with
  | nil =>
    intro _ kv hkv
    simp at hkv
  | cons p ps ih =>
    intro h kv hkv
    obtain ⟨k, v⟩ := p
    rw [allFiltersMatch] at h
    split at h
    · exact Except.noConfusion h
    · rename_i w hl
      split at h
      · rename_i hw
        rcases List.mem_cons.mp hkv with rfl | h1
        · rw [hl, hw]
        · exact ih h kv h1
      · injection h with hb
        exact Bool.noConfusion hb

theorem pyLookup_isSome_iff (d : PyDict) (k : String) :
    (pyLookup d k).isSome = true ↔ k ∈ d.map Prod.fst := by
  induction d with
  | nil => simp [pyLookup]
  | cons kv rest ih =>
    by_cases h : kv.1 == k
    · simp only [pyLookup, List.find?_cons, h]
      simp only [List.map_cons, List.mem_cons]
      constructor
      · intro _
        exact Or.inl (eq_of_beq h).symm
      · intro _
        rfl
    · simp only [pyLookup, List.find?_cons, h]
      rw [show ((rest.find? (fun kv => kv.1 == k)).map (fun kv => kv.2)).isSome = true ↔
            k ∈ rest.map Prod.fst from ih]
      simp only [List.map_cons, List.mem_cons]
      constructor
      · intro hk
        exact Or.inr hk
      · intro hk
        rcases hk with hk | hk
        · exact absurd (beq_iff_eq.mpr hk.symm) (by simpa using h)
        · exact hk

theorem pyLookup_runDict_name (r : RunInfo) :
    pyLookup (runDict r) "name" = some (.str r.name) := rfl

theorem pyLookup_runDict_created_at (r : RunInfo) :
    pyLookup (runDict r) "created_at" = some (.str r.created_at) := rfl

theorem pyLookup_runDict_tags (r : RunInfo) :
    pyLookup (runDict r) "tags" = none := rfl

theorem runDict_keys (r : RunInfo) :
    (runDict r).map Prod.fst =
      ["id", "name", "state", "config", "summary", "created_at", "url"] := rfl

/-- `runDict` names are determined by the dictionary. -/
theorem runDict_name_inj {r r' : RunInfo} (h : runDict r = runDict r') :
    r.name = r'.name := by
  have h2 : pyLookup (runDict r) "name" = pyLookup (runDict r') "name" := by rw [h]
  rw [pyLookup_runDict_name, pyLookup_runDict_name] at h2
  exact Value.str.inj (Option.some.inj h2)

/-- Python `"" in t` is always true. -/
theorem strIn_empty (t : String) : strIn "" t = true := by
  simp only [strIn, decide_eq_true_eq]
  exact ⟨[], t.data, by simp⟩

/-- On a run dictionary built by the local variant, the search test succeeds
exactly on a name match and otherwise raises `KeyError 'tags'`: the
dictionary has no "tags" key. -/
theorem searchCheck_runDict (s : String) (r : RunInfo) :
    searchCheck s (runDict r) =
      if strIn s r.name then .ok true else .error (.keyError "tags") := by
  rw [searchCheck, pyLookup_runDict_name]
  by_cases h : strIn s r.name
  · simp [pyIn, h]
  · simp [pyIn, h, pyLookup_runDict_tags]

/-! ### The three pipeline stages -/

theorem filtersStep_ok_sublist {filters : Option (List (String × Value))}
    {l l' : List PyDict} (h : filtersStep filters l = .ok l') : l'.Sublist l := by
  cases filters with
  | none =>
    rw [filtersStep] at h
    cases h
    exact List.Sublist.refl _
  | some fs =>
    rw [filtersStep] at h
    by_cases hfs : fs.isEmpty
    · rw [if_pos hfs] at h
      cases h
      exact List.Sublist.refl _
    · rw [if_neg hfs] at h
      exact pyFilter_ok_sublist h

theorem filtersStep_ok_matches {fs : List (String × Value)} {l l' : List PyDict}
    (h : filtersStep (some fs) l = .ok l') :
    ∀ d ∈ l', ∀ kv ∈ fs, pyLookup d kv.1 = some kv.2 := by
  rw [filtersStep] at h
  by_cases hfs : fs.isEmpty
  · intro d _ kv hkv
    rw [List.isEmpty_iff] at hfs
    subst hfs
    simp at hkv
  · rw [if_neg hfs] at h
    intro d hd kv hkv
    exact allFiltersMatch_ok_true ((pyFilter_ok_mem h d hd).2) kv hkv

theorem searchStep_ok_sublist {search : Option String} {l l' : List PyDict}
    (h : searchStep search l = .ok l') : l'.Sublist l := by
  cases search with
  | none =>
    rw [searchStep] at h
    cases h
    exact List.Sublist.refl _
  | some s =>
    rw [searchStep] at h
    by_cases hs : s = ""
    · rw [if_pos hs] at h
      cases h
      exact List.Sublist.refl _
    · rw [if_neg hs] at h
      exact pyFilter_ok_sublist h

/-- Elements of a successful search step taken from run dictionaries have
the search string in their name: the `or`-branch over tags can only raise. -/
theorem searchStep_ok_strIn {s : String} {l l' : List PyDict}
    (h : searchStep (some s) l = .ok l') {r : RunInfo}
    (hd : runDict r ∈ l') : strIn s r.name = true := by
  by_cases hs : s = ""
  · subst hs
    exact strIn_empty r.name
  · rw [searchStep, if_neg hs] at h
    have h2 := (pyFilter_ok_mem h _ hd).2
    rw [searchCheck_runDict] at h2
    by_cases hin : strIn s r.name
    · exact hin
    · rw [if_neg hin] at h2
      exact Except.noConfusion h2

/-- If some run dictionary reaching the search step fails the name test,
the whole search step raises `KeyError 'tags'`. -/
theorem searchStep_error_of_fail {s : String} {l : List PyDict}
    (hall : ∀ d ∈ l, ∃ r : RunInfo, d = runDict r) {r : RunInfo}
    (hmem : runDict r ∈ l) (hfail : strIn s r.name = false) :
    searchStep (some s) l = .error (.keyError "tags") := by
  have hs : s ≠ "" := by
    intro hs
    subst hs
    rw [strIn_empty] at hfail
    exact Bool.noConfusion hfail
  rw [searchStep, if_neg hs]
  cases hres : pyFilter (searchCheck s) l with
  | ok l' =>
    exfalso
    obtain ⟨b, hb⟩ := pyFilter_ok_apply hres _ hmem
    rw [searchCheck_runDict, if_neg (by simp [hfail])] at hb
    exact Except.noConfusion hb
  | error e =>
    obtain ⟨a, ha, hpa⟩ := pyFilter_error_exists hres
    obtain ⟨r', rfl⟩ := hall a ha
    rw [searchCheck_runDict] at hpa
    by_cases hin : strIn s r'.name
    · rw [if_pos hin] at hpa
      exact Except.noConfusion hpa
    · rw [if_neg hin] at hpa
      rw [Except.error.inj hpa]

/-- Unpacking a successful sort: every key was present and the result is
the stable sort of the input. -/
theorem pySortRuns_ok_elim {order : String} {l R : List PyDict}
    (h : pySortRuns order l = .ok R) :
    R = l.insertionSort (fun a b => sortLe order a b = true) ∧
      ∀ d ∈ l, (pyLookup d (lstripDash order)).isSome = true := by
  rw [pySortRuns] at h
  by_cases hall : l.all (fun d => (pyLookup d (lstripDash order)).isSome) = true
  · rw [if_pos hall] at h
    refine ⟨(Except.ok.inj h).symm, ?_⟩
    intro d hd
    exact List.all_eq_true.mp hall d hd
  · rw [if_neg hall] at h
    exact Except.noConfusion h

theorem pySortRuns_perm {order : String} {l R : List PyDict}
    (h : pySortRuns order l = .ok R) : R.Perm l := by
  obtain ⟨rfl, -⟩ := pySortRuns_ok_elim h
  exact List.perm_insertionSort _ l

theorem pySortRuns_pairwise {order : String} {l R : List PyDict}
    (h : pySortRuns order l = .ok R) :
    R.Pairwise (fun a b => sortLe order a b = true) := by
  obtain ⟨rfl, -⟩ := pySortRuns_ok_elim h
  haveI : IsTotal PyDict (fun a b => sortLe order a b = true) :=
    ⟨fun a b => sortLe_total order a b⟩
  haveI : IsTrans PyDict (fun a b => sortLe order a b = true) :=
    ⟨fun _ _ _ h1 h2 => sortLe_trans h1 h2⟩
  exact List.sorted_insertionSort _ l

/-- Stability of the sort step: the runs sharing one sort-key value appear
in the output in exactly their input order. -/
theorem pySortRuns_stable {order : String} {l R : List PyDict}
    (h : pySortRuns order l = .ok R) (c : Value) :
    R.filter (fun d => decide (sortKey (lstripDash order) d = c))
      = l.filter (fun d => decide (sortKey (lstripDash order) d = c)) := by
  obtain ⟨rfl, -⟩ := pySortRuns_ok_elim h
  set P : PyDict → Bool := fun d => decide (sortKey (lstripDash order) d = c) with hP
  have hpair : (l.filter P).Pairwise (fun a b => sortLe order a b = true) := by
    apply List.pairwise_of_forall_mem_list
    intro a ha b hb
    have ha' : sortKey (lstripDash order) a = c :=
      of_decide_eq_true (List.mem_filter.mp ha).2
    have hb' : sortKey (lstripDash order) b = c :=
      of_decide_eq_true (List.mem_filter.mp hb).2
    exact sortLe_of_key_eq (ha'.trans hb'.symm)
  have hsub : (l.filter P).Sublist
      (l.insertionSort (fun a b => sortLe order a b = true)) :=
    List.sublist_insertionSort hpair (List.filter_sublist l)
  have hself : (l.filter P).filter P = l.filter P :=
    List.filter_eq_self.mpr (fun a ha => (List.mem_filter.mp ha).2)
  have hsub2 : (l.filter P).Sublist
      ((l.insertionSort (fun a b => sortLe order a b = true)).filter P) := by
    have h3 := hsub.filter P
    rwa [hself] at h3
  have hperm :
      ((l.insertionSort (fun a b => sortLe order a b = true)).filter P).Perm (l.filter P) :=
    (List.perm_insertionSort _ l).filter P
  exact (hsub2.eq_of_length hperm.length_eq.symm).symm

/-! ### The local run-listing pipeline -/

theorem glocal_ok_elim {rs : List RunInfo} {order : String}
    {filters : Option (List (String × Value))} {search : Option String}
    {R : List PyDict}
    (h : get_wandb_runs_local (.ok rs) order filters search = .ok R) :
    ∃ l₁ l₂, filtersStep filters (rs.map runDict) = .ok l₁ ∧
      searchStep search l₁ = .ok l₂ ∧ pySortRuns order l₂ = .ok R := by
  rw [get_wandb_runs_local] at h
  split at h
  · exact Except.noConfusion h
  · rename_i l₁ h1
    split at h
    · exact Except.noConfusion h
    · rename_i l₂ h2
      exact ⟨l₁, l₂, h1, h2, h⟩

theorem glocal_error_fetch (e : RemoteAccessError) (order : String)
    (filters : Option (List (String × Value))) (search : Option String) :
    get_wandb_runs_local (.error e) order filters search = .error (.remote e) := rfl

theorem glocal_steps_error {rs : List RunInfo} {order : String}
    {filters : Option (List (String × Value))} {search : Option String}
    {e : PyError} {l₁ : List PyDict}
    (h1 : filtersStep filters (rs.map runDict) = .ok l₁)
    (h2 : searchStep search l₁ = .error e) :
    get_wandb_runs_local (.ok rs) order filters search = .error e := by
  simp only [get_wandb_runs_local, h1, h2]

/-! ## Claims -/

/-- C1: for every filter mapping and fetched run sequence, every element of
a sequence returned by the local-filtering run listing satisfies
`element[k] == v` for every pair `(k, v)` of the filter mapping (logical
AND of exact top-level equalities), so no element failing any of these
equalities is present. -/
theorem C1_local_filters_exact (rs : List RunInfo) (order : String)
    (fs : List (String × Value)) (search : Option String) (R : List PyDict)
    (h : get_wandb_runs_local (.ok rs) order (some fs) search = .ok R) :
    ∀ d ∈ R, ∀ kv ∈ fs, pyLookup d kv.1 = some kv.2 := by
  obtain ⟨l₁, l₂, h1, h2, h3⟩ := glocal_ok_elim h
  intro d hd
  have hd2 : d ∈ l₂ := (pySortRuns_perm h3).subset hd
  have hd1 : d ∈ l₁ := (searchStep_ok_sublist h2).subset hd2
  exact filtersStep_ok_matches h1 d hd1

/-- Witness for C1 at a concrete input: the filter keeps exactly the
finished run and its state field indeed equals "finished". -/
theorem C1_local_filters_exact_witness :
    get_wandb_runs_local
        (.ok [⟨"i1", "b1", "finished", [], [], "2022", "u1", []⟩,
              ⟨"i2", "b2", "crashed", [], [], "2023", "u2", []⟩])
        "-created_at" (some [("state", .str "finished")]) none
      = .ok [runDict ⟨"i1", "b1", "finished", [], [], "2022", "u1", []⟩] ∧
    ∀ d ∈ [runDict (⟨"i1", "b1", "finished", [], [], "2022", "u1", []⟩ : RunInfo)],
      ∀ kv ∈ [(("state" : String), Value.str "finished")],
        pyLookup d kv.1 = some kv.2 :=
  ⟨by decide,
    C1_local_filters_exact
      [⟨"i1", "b1", "finished", [], [], "2022", "u1", []⟩,
       ⟨"i2", "b2", "crashed", [], [], "2023", "u2", []⟩]
      "-created_at" [("state", .str "finished")] none
      [runDict ⟨"i1", "b1", "finished", [], [], "2022", "u1", []⟩] (by decide)⟩

/-- C2: every element of a locally-searched result comes from a fetched run
whose name contains the search string or whose tag set contains it (the
code in fact only ever keeps name matches), and every fetched run failing
both tests is absent from the result.  `strIn` is case-sensitive substring
containment. -/
theorem C2_local_search (rs : List RunInfo) (order : String)
    (filters : Option (List (String × Value))) (s : String) (R : List PyDict)
    (h : get_wandb_runs_local (.ok rs) order filters (some s) = .ok R) :
    (∀ d ∈ R, ∃ r, r ∈ rs ∧ d = runDict r ∧
        (strIn s r.name = true ∨ r.tags.contains s = true)) ∧
    (∀ r ∈ rs, strIn s r.name = false → r.tags.contains s = false →
        runDict r ∉ R) := by
  obtain ⟨l₁, l₂, h1, h2, h3⟩ := glocal_ok_elim h
  have key : ∀ d ∈ R, ∃ r, r ∈ rs ∧ d = runDict r ∧ strIn s r.name = true := by
    intro d hd
    have hd2 : d ∈ l₂ := (pySortRuns_perm h3).subset hd
    have hd1 : d ∈ l₁ := (searchStep_ok_sublist h2).subset hd2
    have hd0 : d ∈ rs.map runDict := (filtersStep_ok_sublist h1).subset hd1
    obtain ⟨r, hr, rfl⟩ := List.mem_map.mp hd0
    exact ⟨r, hr, rfl, searchStep_ok_strIn h2 hd2⟩
  constructor
  · intro d hd
    obtain ⟨r, hr, rfl, hin⟩ := key d hd
    exact ⟨r, hr, rfl, Or.inl hin⟩
  · intro r hr hname htags hmem
    obtain ⟨r', hr', heq, hin⟩ := key _ hmem
    rw [runDict_name_inj heq, hin] at hname
    exact Bool.noConfusion hname

/-- Witness for C2 at a concrete input: searching "base" keeps the matching
run and drops the non-matching one would-be case is excluded by the filter
part of the statement. -/
theorem C2_local_search_witness :
    get_wandb_runs_local
        (.ok [⟨"i1", "baseline-1", "finished", [], [], "2022", "u1", []⟩])
        "-created_at" none (some "base")
      = .ok [runDict ⟨"i1", "baseline-1", "finished", [], [], "2022", "u1", []⟩] ∧
    ((∀ d ∈ [runDict (⟨"i1", "baseline-1", "finished", [], [], "2022", "u1", []⟩ : RunInfo)],
        ∃ r, r ∈ [(⟨"i1", "baseline-1", "finished", [], [], "2022", "u1", []⟩ : RunInfo)] ∧
          d = runDict r ∧
          (strIn "base" r.name = true ∨ r.tags.contains "base" = true)) ∧
      (∀ r ∈ [(⟨"i1", "baseline-1", "finished", [], [], "2022", "u1", []⟩ : RunInfo)],
        strIn "base" r.name = false → r.tags.contains "base" = false →
          runDict r ∉ [runDict (⟨"i1", "baseline-1", "finished", [], [], "2022", "u1", []⟩ : RunInfo)])) :=
  ⟨by decide,
    C2_local_search
      [⟨"i1", "baseline-1", "finished", [], [], "2022", "u1", []⟩]
      "-created_at" none "base"
      [runDict ⟨"i1", "baseline-1", "finished", [], [], "2022", "u1", []⟩] (by decide)⟩

theorem glocal_pairwise {rs : List RunInfo} {order : String}
    {filters : Option (List (String × Value))} {search : Option String}
    {R : List PyDict}
    (h : get_wandb_runs_local (.ok rs) order filters search = .ok R) :
    R.Pairwise (fun a b => sortLe order a b = true) := by
  obtain ⟨l₁, l₂, h1, h2, h3⟩ := glocal_ok_elim h
  exact pySortRuns_pairwise h3

/-- C3: with order "-created_at" adjacent results are nonincreasing in
created_at; with order "name" they are nondecreasing in name; in general a
leading dash means descending on the stripped field and its absence means
ascending (stated on the value order of the sort keys); and the sort is
stable: the results sharing one sort-key value form, in order, a sublist
of the fetched source sequence. -/
theorem C3_sort_semantics :
    (∀ (rs : List RunInfo) (filters : Option (List (String × Value)))
        (search : Option String) (R : List PyDict),
        get_wandb_runs_local (.ok rs) "-created_at" filters search = .ok R →
        R.Chain' (fun a b => ∀ x y, pyLookup a "created_at" = some (.str x) →
          pyLookup b "created_at" = some (.str y) → y ≤ x)) ∧
    (∀ (rs : List RunInfo) (filters : Option (List (String × Value)))
        (search : Option String) (R : List PyDict),
        get_wandb_runs_local (.ok rs) "name" filters search = .ok R →
        R.Chain' (fun a b => ∀ x y, pyLookup a "name" = some (.str x) →
          pyLookup b "name" = some (.str y) → x ≤ y)) ∧
    (∀ (rs : List RunInfo) (order : String)
        (filters : Option (List (String × Value))) (search : Option String)
        (R : List PyDict),
        get_wandb_runs_local (.ok rs) order filters search = .ok R →
        (startsDash order = true → R.Chain' (fun a b =>
          Value.le (sortKey (lstripDash order) b) (sortKey (lstripDash order) a) = true)) ∧
        (startsDash order = false → R.Chain' (fun a b =>
          Value.le (sortKey (lstripDash order) a) (sortKey (lstripDash order) b) = true))) ∧
    (∀ (rs : List RunInfo) (order : String)
        (filters : Option (List (String × Value))) (search : Option String)
        (R : List PyDict) (c : Value),
        get_wandb_runs_local (.ok rs) order filters search = .ok R →
        (R.filter (fun d => decide (sortKey (lstripDash order) d = c))).Sublist
          (rs.map runDict)) := by
  refine ⟨?_, ?_, ?_, ?_⟩
  · intro rs filters search R h
    have hp := glocal_pairwise h
    refine (hp.imp ?_).chain'
    intro a b hab x y hxa hyb
    rw [sortLe, if_pos (show startsDash "-created_at" = true from rfl)] at hab
    rw [show lstripDash "-created_at" = "created_at" from rfl] at hab
    rw [sortKey, sortKey, hxa, hyb] at hab
    simp only [Option.getD_some] at hab
    simp only [Value.le] at hab
    exact strLe_iff_le.mp hab
  · intro rs filters search R h
    have hp := glocal_pairwise h
    refine (hp.imp ?_).chain'
    intro a b hab x y hxa hyb
    rw [sortLe, if_neg (show ¬startsDash "name" = true by decide)] at hab
    rw [show lstripDash "name" = "name" from rfl] at hab
    rw [sortKey, sortKey, hxa, hyb] at hab
    simp only [Option.getD_some] at hab
    simp only [Value.le] at hab
    exact strLe_iff_le.mp hab
  · intro rs order filters search R h
    have hp := glocal_pairwise h
    constructor
    · intro hd
      refine (hp.imp ?_).chain'
      intro a b hab
      rw [sortLe, if_pos hd] at hab
      exact hab
    · intro hd
      refine (hp.imp ?_).chain'
      intro a b hab
      rw [sortLe, if_neg (by simp [hd])] at hab
      exact hab
  · intro rs order filters search R c h
    obtain ⟨l₁, l₂, h1, h2, h3⟩ := glocal_ok_elim h
    rw [pySortRuns_stable h3 c]
    exact (List.filter_sublist l₂).trans
      ((searchStep_ok_sublist h2).trans (filtersStep_ok_sublist h1))

/-- Witness for C3 at a concrete input: two runs sorted newest first. -/
theorem C3_sort_semantics_witness :
    get_wandb_runs_local
        (.ok [⟨"i1", "b1", "finished", [], [], "2022", "u1", []⟩,
              ⟨"i2", "b2", "finished", [], [], "2023", "u2", []⟩])
        "-created_at" none none
      = .ok [runDict ⟨"i2", "b2", "finished", [], [], "2023", "u2", []⟩,
             runDict ⟨"i1", "b1", "finished", [], [], "2022", "u1", []⟩] ∧
    List.Chain' (fun a b => ∀ x y, pyLookup a "created_at" = some (.str x) →
        pyLookup b "created_at" = some (.str y) → y ≤ x)
      [runDict ⟨"i2", "b2", "finished", [], [], "2023", "u2", []⟩,
       runDict ⟨"i1", "b1", "finished", [], [], "2022", "u1", []⟩] :=
  ⟨by decide,
    C3_sort_semantics.1
      [⟨"i1", "b1", "finished", [], [], "2022", "u1", []⟩,
       ⟨"i2", "b2", "finished", [], [], "2023", "u2", []⟩]
      none none
      [runDict ⟨"i2", "b2", "finished", [], [], "2023", "u2", []⟩,
       runDict ⟨"i1", "b1", "finished", [], [], "2022", "u1", []⟩] (by decide)⟩

theorem stripBookkeeping_spec (cols : List (String × List Value)) :
    (∀ kv ∈ stripBookkeeping cols,
      kv.1 ≠ "_timestamp" ∧ kv.1 ≠ "_runtime" ∧ kv.1 ≠ "_step") ∧
    (∀ kv ∈ cols, kv.1 ∉ bookkeepingCols → kv ∈ stripBookkeeping cols) := by
  constructor
  · intro kv hkv
    have h := (List.mem_filter.mp hkv).2
    simp only [bookkeepingCols, Bool.not_eq_eq_eq_not, Bool.not_true,
      List.contains_eq_any_beq, List.any_eq_false] at h
    refine ⟨?_, ?_, ?_⟩
    · intro hc
      exact absurd hc (by simpa using h "_timestamp" (by simp))
    · intro hc
      exact absurd hc (by simpa using h "_runtime" (by simp))
    · intro hc
      exact absurd hc (by simpa using h "_step" (by simp))
  · intro kv hkv hnb
    refine List.mem_filter.mpr ⟨hkv, ?_⟩
    simp only [Bool.not_eq_eq_eq_not, Bool.not_true]
    rw [← Bool.not_eq_true]
    intro hc
    exact hnb (List.elem_iff.mp hc)

/-- C4: metric-history mappings never contain the keys "_timestamp",
"_runtime" or "_step", and every other fetched column appears with its
value series, for both the training and the system stream. -/
theorem C4_metric_history_keys (run : RunData) :
    (∀ m, get_run_training_metrics (.ok run) = .ok m →
      (∀ kv ∈ m, kv.1 ≠ "_timestamp" ∧ kv.1 ≠ "_runtime" ∧ kv.1 ≠ "_step") ∧
      (∀ kv ∈ run.history, kv.1 ∉ bookkeepingCols → kv ∈ m)) ∧
    (∀ m, get_run_system_metrics (.ok run) = .ok m →
      (∀ kv ∈ m, kv.1 ≠ "_timestamp" ∧ kv.1 ≠ "_runtime" ∧ kv.1 ≠ "_step") ∧
      (∀ kv ∈ run.eventsHistory, kv.1 ∉ bookkeepingCols → kv ∈ m)) := by
  constructor
  · intro m hm
    rw [get_run_training_metrics] at hm
    injection hm with hm
    subst hm
    exact stripBookkeeping_spec run.history
  · intro m hm
    rw [get_run_system_metrics] at hm
    injection hm with hm
    subst hm
    exact stripBookkeeping_spec run.eventsHistory

/-- Witness for C4 at a concrete input: a history with a "loss" column and
a "_step" column keeps exactly the "loss" column. -/
theorem C4_metric_history_keys_witness :
    get_run_training_metrics
        (.ok ⟨[], [], [("loss", [Value.int 1, Value.int 2]), ("_step", [Value.int 0])], []⟩)
      = .ok [("loss", [Value.int 1, Value.int 2])] ∧
    ((∀ kv ∈ [(("loss" : String), [Value.int 1, Value.int 2])],
        kv.1 ≠ "_timestamp" ∧ kv.1 ≠ "_runtime" ∧ kv.1 ≠ "_step") ∧
      (∀ kv ∈ [(("loss" : String), [Value.int 1, Value.int 2]),
               (("_step" : String), [Value.int 0])],
        kv.1 ∉ bookkeepingCols → kv ∈ [(("loss" : String), [Value.int 1, Value.int 2])])) :=
  ⟨by decide,
    (C4_metric_history_keys
        ⟨[], [], [("loss", [Value.int 1, Value.int 2]), ("_step", [Value.int 0])], []⟩).1
      [("loss", [Value.int 1, Value.int 2])] (by decide)⟩

/-- C5: for a run identifier that does not resolve under the given
entity/project, all four detail accessors fail with the runNotFound
specialization of `RemoteAccessError` rather than returning a mapping. -/
theorem C5_run_not_found (registry : List (String × RunData))
    (entity project run_id : String)
    (h : registry.find?
        (fun kv => kv.1 == entity ++ "/" ++ project ++ "/" ++ run_id) = none) :
    get_run_config (apiRun registry entity project run_id)
        = .error (.runNotFound (entity ++ "/" ++ project ++ "/" ++ run_id)) ∧
    get_run_summary_metrics (apiRun registry entity project run_id)
        = .error (.runNotFound (entity ++ "/" ++ project ++ "/" ++ run_id)) ∧
    get_run_training_metrics (apiRun registry entity project run_id)
        = .error (.runNotFound (entity ++ "/" ++ project ++ "/" ++ run_id)) ∧
    get_run_system_metrics (apiRun registry entity project run_id)
        = .error (.runNotFound (entity ++ "/" ++ project ++ "/" ++ run_id)) := by
  have ha : apiRun registry entity project run_id
      = .error (.runNotFound (entity ++ "/" ++ project ++ "/" ++ run_id)) := by
    simp only [apiRun, h]
  refine ⟨?_, ?_, ?_, ?_⟩ <;>
    simp only [get_run_config, get_run_summary_metrics, get_run_training_metrics,
      get_run_system_metrics, ha]

/-- Witness for C5 at a concrete input: the empty registry resolves no run. -/
theorem C5_run_not_found_witness :
    ([] : List (String × RunData)).find?
        (fun kv => kv.1 == "e" ++ "/" ++ "p" ++ "/" ++ "r") = none ∧
    get_run_config (apiRun [] "e" "p" "r")
      = .error (.runNotFound ("e" ++ "/" ++ "p" ++ "/" ++ "r")) :=
  ⟨rfl, (C5_run_not_found [] "e" "p" "r" rfl).1⟩

/-- C6: when the remote call fails, both run-listing variants fail with the
`RemoteAccessError` carrying the underlying message, and no (partial)
result sequence is returned. -/
theorem C6_remote_error_atomic
    (e : RemoteAccessError) (order : String)
    (filters : Option (List (String × Value))) (search : Option String)
    (api_runs : String → List (String × Value) → Except RemoteAccessError (List RunInfo))
    (entity project : String) (per_page : Int)
    (h : api_runs (entity ++ "/" ++ project)
        (buildQueryParams per_page order filters search) = .error e) :
    get_wandb_runs_local (.error e) order filters search = .error (.remote e) ∧
    (∀ R, get_wandb_runs_local (.error e) order filters search ≠ .ok R) ∧
    get_wandb_runs_server api_runs entity project per_page order filters search
      = .error e ∧
    (∀ R, get_wandb_runs_server api_runs entity project per_page order filters search
      ≠ .ok R) := by
  refine ⟨rfl, ?_, ?_, ?_⟩
  · intro R hR
    rw [glocal_error_fetch] at hR
    exact Except.noConfusion hR
  · simp only [get_wandb_runs_server, h]
  · intro R hR
    simp only [get_wandb_runs_server, h] at hR
    exact Except.noConfusion hR

/-- Witness for C6 at a concrete input: a client that always fails. -/
theorem C6_remote_error_atomic_witness :
    ((fun _ _ => .error (.commError "network down")) :
        String → List (String × Value) → Except RemoteAccessError (List RunInfo))
      ("e" ++ "/" ++ "p") (buildQueryParams 50 "-created_at" none none)
        = .error (.commError "network down") ∧
    get_wandb_runs_local (.error (.commError "network down")) "-created_at" none none
      = .error (.remote (.commError "network down")) :=
  ⟨rfl,
    (C6_remote_error_atomic (.commError "network down") "-created_at" none none
      (fun _ _ => .error (.commError "network down")) "e" "p" 50 rfl).1⟩

/-- C7: project listing returns one dictionary per fetched project, in the
order the remote service yields them, each with exactly the seven project
attributes name, entity, description, visibility, created_at, updated_at,
tags broken out. -/
theorem C7_entity_projects (ps : List ProjectInfo) (R : List PyDict)
    (h : get_entity_projects (.ok ps) = .ok R) :
    R.length = ps.length ∧
    ∀ i (hR : i < R.length) (hp : i < ps.length),
      (R[i].map Prod.fst =
        ["name", "entity", "description", "visibility", "created_at",
         "updated_at", "tags"]) ∧
      pyLookup R[i] "name" = some (.str ps[i].name) ∧
      pyLookup R[i] "entity" = some (.str ps[i].entity) ∧
      pyLookup R[i] "description" = some (.str ps[i].description) ∧
      pyLookup R[i] "visibility" = some (.str ps[i].visibility) ∧
      pyLookup R[i] "created_at" = some (.str ps[i].created_at) ∧
      pyLookup R[i] "updated_at" = some (.str ps[i].updated_at) ∧
      pyLookup R[i] "tags" = some (.strList ps[i].tags) := by
  rw [get_entity_projects] at h
  injection h with h
  subst h
  constructor
  · exact List.length_map _ _
  · intro i hR hp
    rw [List.getElem_map]
    exact ⟨rfl, rfl, rfl, rfl, rfl, rfl, rfl, rfl⟩

/-- Witness for C7 at a concrete input. -/
theorem C7_entity_projects_witness :
    get_entity_projects (.ok [⟨"n", "e", "d", "public", "c", "u", ["t"]⟩])
      = .ok [projectDict ⟨"n", "e", "d", "public", "c", "u", ["t"]⟩] ∧
    [projectDict (⟨"n", "e", "d", "public", "c", "u", ["t"]⟩ : ProjectInfo)].length
      = [(⟨"n", "e", "d", "public", "c", "u", ["t"]⟩ : ProjectInfo)].length :=
  ⟨rfl,
    (C7_entity_projects [⟨"n", "e", "d", "public", "c", "u", ["t"]⟩]
      [projectDict ⟨"n", "e", "d", "public", "c", "u", ["t"]⟩] rfl).1⟩

/-- C10: executing a raw query with variables omitted and with an explicit
empty mapping performs the same remote execution and returns its nested
result unchanged in both cases. -/
theorem C10_graphql_none_eq_empty
    (clientExecute : String → List (String × Value) → Except RemoteAccessError Value)
    (query : String) :
    execute_graphql_query clientExecute query none
      = execute_graphql_query clientExecute query (some []) ∧
    execute_graphql_query clientExecute query none = clientExecute query [] :=
  ⟨rfl, rfl⟩

/-- C8 as stated is false at this input: the search string "y" is given and
the single fetched run's name "x" does not contain it, yet the operation
succeeds with an empty sequence, because the filter step removes that run
before the search step can reach its missing "tags" key. -/
theorem C8_counterexample :
    strIn "y" "x" = false ∧
    get_wandb_runs_local
        (.ok [⟨"id0", "x", "crashed", [], [], "2021", "u", []⟩])
        "-created_at" (some [("state", .str "finished")]) (some "y")
      = .ok [] :=
  ⟨by decide, by decide⟩

/-- C8 amended: every constructed run mapping has key domain exactly
id, name, state, config, summary, created_at, url — no "tags" key; for
every call with a search string where some run dictionary surviving the
filter step fails the name containment, the `run['tags']` lookup is on an
absent key and the whole operation fails with `KeyError 'tags'` instead of
excluding that run; and the filter step's lookup `run[k]` on a constructed
run mapping succeeds exactly when `k` is among those seven keys. -/
theorem C8_amended (rs : List RunInfo) (order : String)
    (filters : Option (List (String × Value))) (s : String)
    (l₁ : List PyDict) (r : RunInfo)
    (h1 : filtersStep filters (rs.map runDict) = .ok l₁)
    (hmem : runDict r ∈ l₁) (hfail : strIn s r.name = false) :
    ((runDict r).map Prod.fst =
      ["id", "name", "state", "config", "summary", "created_at", "url"]) ∧
    get_wandb_runs_local (.ok rs) order filters (some s)
      = .error (.keyError "tags") ∧
    (∀ (r' : RunInfo) (k : String),
      (pyLookup (runDict r') k).isSome = true ↔
        k ∈ ["id", "name", "state", "config", "summary", "created_at", "url"]) := by
  refine ⟨runDict_keys r, ?_, ?_⟩
  · have hall : ∀ d ∈ l₁, ∃ r' : RunInfo, d = runDict r' := by
      intro d hd
      have hmap := (filtersStep_ok_sublist h1).subset hd
      obtain ⟨r', _, rfl⟩ := List.mem_map.mp hmap
      exact ⟨r', rfl⟩
    exact glocal_steps_error h1 (searchStep_error_of_fail hall hmem hfail)
  · intro r' k
    rw [pyLookup_isSome_iff, runDict_keys]

/-- Witness for the amended C8 at a concrete input: with no filters the
run named "x" reaches the search step and the call fails with
`KeyError 'tags'`. -/
theorem C8_amended_witness :
    filtersStep none
        ([(⟨"id0", "x", "crashed", [], [], "2021", "u", []⟩ : RunInfo)].map runDict)
      = .ok ([(⟨"id0", "x", "crashed", [], [], "2021", "u", []⟩ : RunInfo)].map runDict) ∧
    runDict (⟨"id0", "x", "crashed", [], [], "2021", "u", []⟩ : RunInfo)
      ∈ [(⟨"id0", "x", "crashed", [], [], "2021", "u", []⟩ : RunInfo)].map runDict ∧
    strIn "y" "x" = false ∧
    get_wandb_runs_local
        (.ok [⟨"id0", "x", "crashed", [], [], "2021", "u", []⟩])
        "-created_at" none (some "y")
      = .error (.keyError "tags") :=
  ⟨rfl, by decide, by decide,
    (C8_amended [⟨"id0", "x", "crashed", [], [], "2021", "u", []⟩] "-created_at"
      none "y"
      ([(⟨"id0", "x", "crashed", [], [], "2021", "u", []⟩ : RunInfo)].map runDict)
      ⟨"id0", "x", "crashed", [], [], "2021", "u", []⟩
      rfl (by decide) (by decide)).2.1⟩

/-- Any entry of the server variant's query parameters is the paging entry,
the order entry, the search entry, or a filter entry with an allowed key. -/
theorem mem_buildQueryParams {per_page : Int} {order : String}
    {fs : List (String × Value)} {search : Option String} {kv : String × Value}
    (h : kv ∈ buildQueryParams per_page order (some fs) search) :
    kv.1 = "per_page" ∨ kv.1 = "order" ∨ kv.1 = "search" ∨
      (kv ∈ fs ∧ kv.1 ∈ allowedFilterKeys) := by
  simp only [buildQueryParams] at h
  have hW : ∀ kv' : String × Value,
      kv' ∈ (if fs.isEmpty
        then [(("per_page" : String), Value.int per_page), ("order", Value.str order)]
        else [(("per_page" : String), Value.int per_page), ("order", Value.str order)]
          ++ fs.filter (fun kv => allowedFilterKeys.contains kv.1)) →
      kv'.1 = "per_page" ∨ kv'.1 = "order" ∨
        (kv' ∈ fs ∧ kv'.1 ∈ allowedFilterKeys) := by
    intro kv' h'
    by_cases he : fs.isEmpty
    · rw [if_pos he] at h'
      rcases List.mem_cons.mp h' with rfl | h'
      · exact Or.inl rfl
      · rcases List.mem_cons.mp h' with rfl | h'
        · exact Or.inr (Or.inl rfl)
        · simp at h'
    · rw [if_neg he] at h'
      rcases List.mem_append.mp h' with h' | h'
      · rcases List.mem_cons.mp h' with rfl | h'
        · exact Or.inl rfl
        · rcases List.mem_cons.mp h' with rfl | h'
          · exact Or.inr (Or.inl rfl)
          · simp at h'
      · have h2 := List.mem_filter.mp h'
        exact Or.inr (Or.inr ⟨h2.1, List.elem_iff.mp h2.2⟩)
  cases search with
  | none =>
    simp only [buildQueryParams] at h
    rcases hW kv h with h' | h' | h'
    · exact Or.inl h'
    · exact Or.inr (Or.inl h')
    · exact Or.inr (Or.inr (Or.inr h'))
  | some s =>
    simp only [buildQueryParams] at h
    by_cases hs : s = ""
    · rw [if_pos hs] at h
      rcases hW kv h with h' | h' | h'
      · exact Or.inl h'
      · exact Or.inr (Or.inl h')
      · exact Or.inr (Or.inr (Or.inr h'))
    · rw [if_neg hs] at h
      rcases List.mem_append.mp h with h' | h'
      · rcases hW kv h' with h'' | h'' | h''
        · exact Or.inl h''
        · exact Or.inr (Or.inl h'')
        · exact Or.inr (Or.inr (Or.inr h''))
      · rcases List.mem_cons.mp h' with rfl | h''
        · exact Or.inr (Or.inr (Or.inl rfl))
        · simp at h''

/-- Filter mappings agreeing on the allowed keys produce the same query
parameters. -/
theorem buildQueryParams_filter_congr {per_page : Int} {order : String}
    {fs fs' : List (String × Value)} {search : Option String}
    (hagree : fs.filter (fun kv => allowedFilterKeys.contains kv.1)
      = fs'.filter (fun kv => allowedFilterKeys.contains kv.1)) :
    buildQueryParams per_page order (some fs) search
      = buildQueryParams per_page order (some fs') search := by
  have collapse : ∀ gs : List (String × Value),
      (if gs.isEmpty
        then [(("per_page" : String), Value.int per_page), ("order", Value.str order)]
        else [(("per_page" : String), Value.int per_page), ("order", Value.str order)]
          ++ gs.filter (fun kv => allowedFilterKeys.contains kv.1))
      = [(("per_page" : String), Value.int per_page), ("order", Value.str order)]
          ++ gs.filter (fun kv => allowedFilterKeys.contains kv.1) := by
    intro gs
    by_cases he : gs.isEmpty
    · rw [if_pos he, List.isEmpty_iff.mp he]
      simp
    · rw [if_neg he]
  simp only [buildQueryParams, collapse]
  simp only [hagree]

/-- C9: the server variant forwards exactly the filter entries with key
"state", "tags", "config" or "summary" as query parameters; an entry with
any other (non-reserved) key never reaches the query parameters and has no
effect on the returned sequence. -/
theorem C9_server_filter_forwarding
    (per_page : Int) (order : String) (fs fs' : List (String × Value))
    (search : Option String)
    (api_runs : String → List (String × Value) → Except RemoteAccessError (List RunInfo))
    (entity project : String)
    (hagree : fs.filter (fun kv => allowedFilterKeys.contains kv.1)
      = fs'.filter (fun kv => allowedFilterKeys.contains kv.1)) :
    (∀ kv ∈ buildQueryParams per_page order (some fs) search,
      kv.1 ∉ (["per_page", "order", "search"] : List String) →
        kv ∈ fs ∧ kv.1 ∈ allowedFilterKeys) ∧
    (∀ kv : String × Value, kv ∈ fs → kv.1 ∉ allowedFilterKeys →
      kv.1 ∉ (["per_page", "order", "search"] : List String) →
        kv ∉ buildQueryParams per_page order (some fs) search) ∧
    get_wandb_runs_server api_runs entity project per_page order (some fs) search
      = get_wandb_runs_server api_runs entity project per_page order (some fs') search := by
  refine ⟨?_, ?_, ?_⟩
  · intro kv hkv hnot
    rcases mem_buildQueryParams hkv with h | h | h | h
    · exact absurd (by simp [h]) hnot
    · exact absurd (by simp [h]) hnot
    · exact absurd (by simp [h]) hnot
    · exact h
  · intro kv hkv hnal hnot hmem
    rcases mem_buildQueryParams hmem with h | h | h | h
    · exact hnot (by simp [h])
    · exact hnot (by simp [h])
    · exact hnot (by simp [h])
    · exact hnal h.2
  · rw [get_wandb_runs_server, get_wandb_runs_server,
      buildQueryParams_filter_congr hagree]

/-- Witness for C9 at a concrete input: dropping the entry with the
unknown key "foo" leaves the result unchanged. -/
theorem C9_server_filter_forwarding_witness :
    ([(("state" : String), Value.str "finished"), ("foo", Value.int 3)].filter
        (fun kv => allowedFilterKeys.contains kv.1)
      = [(("state" : String), Value.str "finished")].filter
        (fun kv => allowedFilterKeys.contains kv.1)) ∧
    get_wandb_runs_server (fun _ _ => .ok []) "e" "p" 50 "-created_at"
        (some [("state", Value.str "finished"), ("foo", Value.int 3)]) none
      = get_wandb_runs_server (fun _ _ => .ok []) "e" "p" 50 "-created_at"
        (some [("state", Value.str "finished")]) none :=
  ⟨by decide,
    (C9_server_filter_forwarding 50 "-created_at"
      [("state", Value.str "finished"), ("foo", Value.int 3)]
      [("state", Value.str "finished")] none
      (fun _ _ => .ok []) "e" "p" (by decide)).2.2⟩
